import Mathlib

/-!
Verification development for the go-validator/validator repository.

The repository contains several variant implementations of a struct-tag
value-validation library.  Two layers are embedded here:

* `V1` — the legacy engine that is present in full in the sources
  (`Validator.Validate`, `Validator.Valid`, `Validator.validateVar`,
  `Validator.parseTags`, `Validator.copy`, `Validator.SetValidationFunc`
  together with the legacy builtin rules `nonzero`, `length`, `min`, `max`,
  `regex` that operate on `interface\x7b\x7d` values and panic on
  malformed parameters).

* `W` — the rich "walidator" engine described by the specification
  (path-tracked traversal, `-` skip, escaped commas in tags, per-path
  bad-parameter reporting).  The engine file of that variant is not among
  the sources; only its builtin rules (type-directed `nonzero`, `length`,
  `min`, `max`, `regex` returning `ErrBadParameter`/`ErrUnsupported`) and
  its tests are.  The missing engine parts are modelled from the spec and
  are marked as such in their doc comments.

Go values are deep-embedded as `GoValue`; machine strings use byte
lengths (`utf8Len`), integers are `Int` (the parameters exercised are far
inside the int64 range, and `goParseInt` carries the 64-bit range check).
-/

/-- Byte length of a character list, modelling Go `len` on strings
(UTF-8 byte count). -/
def utf8Len : List Char → Nat
  | [] => 0
  | c :: rest => c.utf8Size + utf8Len rest

/-- Go `strings.Trim(s, " ")` on a character list: remove leading and
trailing space characters. -/
def trimSpaces (cs : List Char) : List Char :=
  ((cs.dropWhile (fun c => c == ' ')).reverse.dropWhile (fun c => c == ' ')).reverse

/-- Prepend a character to the first group of a split result. -/
def consHead (c : Char) : List (List Char) → List (List Char)
  | [] => [[c]]
  | g :: gs => (c :: g) :: gs

/-- Go `strings.Split(s, ",")`: split on every comma; the empty string
yields one empty segment. -/
def splitComma : List Char → List (List Char)
  | [] => [[]]
  | c :: rest => if c = ',' then [] :: splitComma rest else consHead c (splitComma rest)

/-- Go `strings.SplitN(s, "=", 2)`: the part before the first `=` and,
when a `=` is present, the remainder after it. -/
def splitEqChars : List Char → List Char × Option (List Char)
  | [] => ([], none)
  | c :: rest =>
    if c = '=' then ([], some rest)
    else
      let p := splitEqChars rest
      (c :: p.1, p.2)

/-- Digit accumulator for `goParseInt`. -/
def decDigitsGo : List Char → Nat → Option Nat
  | [], acc => some acc
  | c :: rest, acc =>
    if c.isDigit then decDigitsGo rest (acc * 10 + (c.toNat - 48)) else none

/-- Unsigned decimal literal. -/
def decNat : List Char → Option Nat
  | [] => none
  | cs => decDigitsGo cs 0

/-- Models Go `strconv.ParseInt(s, 0, 64)` on plain decimal literals with
an optional sign, including the 64-bit range check.  (Base-0 `0x`/octal
prefixes and digit underscores are not modelled; no parameter exercised
by the sources uses them.) -/
def goParseInt (s : String) : Option Int :=
  let signed : Option Int :=
    match s.data with
    | '+' :: rest => (decNat rest).map (fun n => (n : Int))
    | '-' :: rest => (decNat rest).map (fun n => -(n : Int))
    | cs => (decNat cs).map (fun n => (n : Int))
  match signed with
  | none => none
  | some v => if -(2 ^ 63) ≤ v ∧ v ≤ 2 ^ 63 - 1 then some v else none

/-- Association-list lookup keyed by strings (models Go map indexing for
the validation-function registries). -/
def regFind {α : Type} : List (String × α) → String → Option α
  | [], _ => none
  | (k, f) :: rest, name => if k = name then some f else regFind rest name

mutual
/-- Deep embedding of the Go runtime values the validator walks:
integers, strings, pointers and structs.  Struct fields carry their
name, their validation-tag string and their value. -/
inductive GoValue where
  | intV (n : Int)
  | strV (s : String)
  | ptrV (p : GoPtr)
  | structV (fs : GoFields)

/-- A Go pointer: nil or a reference to a value. -/
inductive GoPtr where
  | nil
  | ref (v : GoValue)

/-- The field list of a struct value: name, tag string, value. -/
inductive GoFields where
  | nil
  | cons (name tag : String) (v : GoValue) (rest : GoFields)
end

/-- Build a field list from a Lean list. -/
def gf : List (String × String × GoValue) → GoFields
  | [] => .nil
  | (n, t, v) :: rest => .cons n t v (gf rest)

/-- Concatenation of field lists. -/
def GoFields.append : GoFields → GoFields → GoFields
  | .nil, g => g
  | .cons n t v rest, g => .cons n t v (rest.append g)

/-- The reflect kinds present in the embedded value universe. -/
inductive Kind where
  | intK
  | strK
  | ptrK
  | structK
deriving DecidableEq

/-- Models `reflect.ValueOf(v).Kind()`. -/
def GoValue.kind : GoValue → Kind
  | .intV _ => .intK
  | .strV _ => .strK
  | .ptrV _ => .ptrK
  | .structV _ => .structK

/-- The kind reached after following non-nil pointers. -/
def GoValue.finalKind : GoValue → Kind
  | .ptrV (.ref v) => v.finalKind
  | v => v.kind

/-- Wrap a value in `k` levels of non-nil pointers. -/
def GoValue.ptrIter : Nat → GoValue → GoValue
  | 0, v => v
  | k + 1, v => .ptrV (.ref (GoValue.ptrIter k v))

/-- The sentinel errors of the legacy variant (`error.go`), plus
`textErr` for errors built with `errors.New` at a call site. -/
inductive VErr where
  | zeroValue
  | min
  | max
  | len
  | regexp
  | unsupported
  | badParameter
  | unknownTag
  | invalid
  | textErr (s : String)
deriving DecidableEq

/-- The type of the legacy validation functions
(`ValidationFunc func(v interface\x7b\x7d, param string) error`),
embedded over `Option GoValue` (`none` models the nil interface /
`reflect.Invalid`).  A `.error` result models a Go panic with that
message; `.ok none` means the check passed, `.ok (some e)` that it
failed with error `e`. -/
abbrev V1.OldVF : Type := Option GoValue → String → Except String (Option VErr)

/-- Legacy builtin `nonzero` (builtins.go, `interface` variant):
strings are non-empty, pointers non-nil, ints non-zero; a nil interface
is always a zero value; unsupported kinds panic. -/
def V1.nonzeroFn : V1.OldVF := fun v _param =>
  match v with
  | none => .ok (some .zeroValue)
  | some (.strV s) => .ok (if utf8Len s.data ≠ 0 then none else some .zeroValue)
  | some (.ptrV (.ref _)) => .ok none
  | some (.ptrV .nil) => .ok (some .zeroValue)
  | some (.intV n) => .ok (if n ≠ 0 then none else some .zeroValue)
  | some (.structV _) => .error "Unsupported type"

/-- Legacy builtin `length`: byte length of strings and value of ints
must equal the parameter; `asInt` panics on an unparseable parameter. -/
def V1.lengthFn : V1.OldVF := fun v param =>
  match v with
  | some (.strV s) =>
    match goParseInt param with
    | none => .error ("Invalid param " ++ param ++ ", should be an integer")
    | some p => .ok (if (utf8Len s.data : Int) = p then none else some .len)
  | some (.intV n) =>
    match goParseInt param with
    | none => .error ("Invalid param " ++ param ++ ", should be an integer")
    | some p => .ok (if n = p then none else some .len)
  | _ => .error "length is not a valid validation tag for this type"

/-- Legacy builtin `min`. -/
def V1.minFn : V1.OldVF := fun v param =>
  match v with
  | some (.strV s) =>
    match goParseInt param with
    | none => .error ("Invalid param " ++ param ++ ", should be an integer")
    | some p => .ok (if (utf8Len s.data : Int) < p then some .min else none)
  | some (.intV n) =>
    match goParseInt param with
    | none => .error ("Invalid param " ++ param ++ ", should be an integer")
    | some p => .ok (if n < p then some .min else none)
  | _ => .error "min is not a valid validation tag for this type"

/-- Legacy builtin `max`. -/
def V1.maxFn : V1.OldVF := fun v param =>
  match v with
  | some (.strV s) =>
    match goParseInt param with
    | none => .error ("Invalid param " ++ param ++ ", should be an integer")
    | some p => .ok (if (utf8Len s.data : Int) > p then some .max else none)
  | some (.intV n) =>
    match goParseInt param with
    | none => .error ("Invalid param " ++ param ++ ", should be an integer")
    | some p => .ok (if n > p then some .max else none)
  | _ => .error "max is not a valid validation tag for this type"

/-- Modelled from the spec: Go `regexp` compilation and matching is an
external collaborator (stdlib); only the pattern family exercised by the
spec's escaped-comma example is interpreted.  The pattern
`^a\x7b3,10\x7d` (anchored at the start, not at the end) matches a
string iff it begins with at least three `a` characters. -/
def regexpCompile (param : String) : Option (String → Bool) :=
  if param = "^a\x7b3,10\x7d" then
    some (fun s => 3 ≤ (s.data.takeWhile (fun c => c == 'a')).length)
  else none

/-- Legacy builtin `regex`: requires a string value (panics otherwise)
and compiles the parameter with `MustCompile` (panics on a bad
pattern). -/
def V1.regexFn : V1.OldVF := fun v param =>
  match v with
  | some (.strV s) =>
    match regexpCompile param with
    | none => .error "regexp: Compile: error parsing regexp"
    | some m => .ok (if m s then none else some (.textErr "regexp does not match"))
  | _ => .error "regexp requires a string"

/-- The custom validation function registered by `TestCopy`
(`func(_ interface\x7b\x7d, _ string) error \x7b return nil \x7d`). -/
def V1.customFn : V1.OldVF := fun _ _ => .ok none

/-- A legacy registry: the `validationFuncs` map contents. -/
abbrev V1.Reg : Type := List (String × V1.OldVF)

/-- The registry installed by `NewValidator`. -/
def V1.defaultFuncs : V1.Reg :=
  [("nonzero", V1.nonzeroFn), ("len", V1.lengthFn), ("min", V1.minFn),
   ("max", V1.maxFn), ("regexp", V1.regexFn)]

/-- A parsed tag item of the legacy variant (`type tag struct`). -/
structure V1.Tag where
  name : String
  fn : V1.OldVF
  param : String

/-- Segment loop of the legacy `Validator.parseTags`: split each segment
on the first `=`, trim spaces, reject empty names and names missing
from the registry with `ErrUnknownTag`. -/
def V1.parseGo (reg : V1.Reg) : List (List Char) → Except VErr (List V1.Tag)
  | [] => .ok []
  | seg :: rest =>
    let pr := splitEqChars seg
    let name : String := ⟨trimSpaces pr.1⟩
    if name = "" then .error .unknownTag
    else
      let param : String :=
        match pr.2 with
        | some r => ⟨trimSpaces r⟩
        | none => ""
      match regFind reg name with
      | none => .error .unknownTag
      | some fn =>
        match V1.parseGo reg rest with
        | .error e => .error e
        | .ok tags => .ok ({ name := name, fn := fn, param := param } :: tags)

/-- Legacy `Validator.parseTags`: plain comma split (no escape
handling), then the segment loop. -/
def V1.parseTags (reg : V1.Reg) (t : String) : Except VErr (List V1.Tag) :=
  V1.parseGo reg (splitComma t.data)

/-- The rule-application loop of `validateVar`: run every parsed tag in
order, collecting failures; a panic in a rule aborts everything. -/
def V1.runTags (v : Option GoValue) : List V1.Tag → Except String (List VErr)
  | [] => .ok []
  | t :: rest =>
    match t.fn v t.param with
    | .error m => .error m
    | .ok r =>
      match V1.runTags v rest with
      | .error m => .error m
      | .ok others => .ok (match r with | some e => e :: others | none => others)

/-- The failures of the tag list in declaration order: reference
formulation used to state the insertion-order property. -/
def V1.orderedFailures (v : Option GoValue) (ts : List V1.Tag) : List VErr :=
  ts.filterMap (fun t => match t.fn v t.param with | .ok r => r | .error _ => none)

/-- Legacy `Validator.validateVar`: parse the tag (a parse error is
returned as the single element of the error list), then run the rules. -/
def V1.validateVar (reg : V1.Reg) (v : Option GoValue) (tag : String) :
    Except String (List VErr) :=
  match V1.parseTags reg tag with
  | .error e => .ok [e]
  | .ok tags => V1.runTags v tags

/-- Core of the legacy `Validator.Valid` on a concrete (non-nil
interface) value: dereference non-nil pointers, reject structs with
`ErrUnsupported`, otherwise validate the single variable. -/
def V1.ValidGo (reg : V1.Reg) : GoValue → String → Except String (Bool × List VErr)
  | .ptrV (.ref v), tags => V1.ValidGo reg v tags
  | .structV _, _ => .ok (false, [.unsupported])
  | v, tags =>
    match V1.validateVar reg (some v) tags with
    | .error m => .error m
    | .ok errs => .ok (errs.length < 1, errs)

/-- Legacy `Validator.Valid`: a nil interface has kind `Invalid` and is
validated as `nil`. -/
def V1.Valid (reg : V1.Reg) (val : Option GoValue) (tags : String) :
    Except String (Bool × List VErr) :=
  match val with
  | none =>
    match V1.validateVar reg none tags with
    | .error m => .error m
    | .ok errs => .ok (errs.length < 1, errs)
  | some v => V1.ValidGo reg v tags

/-- The error map built by the legacy `Validator.Validate`
(`map[string][]error`), kept in insertion order. -/
abbrev V1.ErrMap : Type := List (String × List VErr)

mutual
/-- Core of the legacy `Validator.Validate`: dereference non-nil
pointers, walk struct fields, report `ErrUnsupported` under the empty
path for any other kind. -/
def V1.ValidateV (reg : V1.Reg) : GoValue → Except String V1.ErrMap
  | .ptrV (.ref v) => V1.ValidateV reg v
  | .structV fs => V1.validateFieldsV reg fs
  | _ => .ok [("", [.unsupported])]

/-- The field loop of the legacy `Validator.Validate`. -/
def V1.validateFieldsV (reg : V1.Reg) : GoFields → Except String V1.ErrMap
  | .nil => .ok []
  | .cons name tag fv rest =>
    match V1.fieldEntries reg name tag fv with
    | .error m => .error m
    | .ok entries =>
      match V1.validateFieldsV reg rest with
      | .error m => .error m
      | .ok ms => .ok (entries ++ ms)

/-- One iteration of the field loop: first the `for ... f = f.Elem()`
dereferencing of non-nil pointers; a struct field is recursed into
(its own tag ignored) with the field name prefixed to every inner path;
any other field is skipped when its tag is empty and otherwise handed
to `Valid`, recording the errors under the field name when there are
any. -/
def V1.fieldEntries (reg : V1.Reg) (name tag : String) : GoValue → Except String V1.ErrMap
  | .ptrV (.ref v) => V1.fieldEntries reg name tag v
  | .structV fs =>
    match V1.validateFieldsV reg fs with
    | .error m => .error m
    | .ok ms => .ok (ms.map (fun e => (name ++ "." ++ e.1, e.2)))
  | v =>
    if tag = "" then .ok []
    else
      match V1.validateVar reg (some v) tag with
      | .error m => .error m
      | .ok errs => .ok (if errs.isEmpty then [] else [(name, errs)])
end

/-- Legacy `Validator.Validate`: returns `len(m) == 0` together with the
error map; non-struct (after dereferencing) input yields the
`ErrUnsupported` map under the empty path. -/
def V1.Validate (reg : V1.Reg) (val : Option GoValue) :
    Except String (Bool × V1.ErrMap) :=
  match val with
  | none => .ok (false, [("", [.unsupported])])
  | some v =>
    match V1.ValidateV reg v with
    | .error m => .error m
    | .ok ms => .ok (ms.isEmpty, ms)

/-- A legacy `Validator` value: the tag name and the identity of the
`validationFuncs` map it references (Go maps are reference values, so
the struct holds a handle, not the contents). -/
structure V1.Validator where
  tagName : String
  funcsRef : Nat

/-- The heap of registry maps: map identity to contents. -/
abbrev V1.Heap : Type := List (Nat × V1.Reg)

/-- `NewValidator()`: a fresh map holding the default functions. -/
def V1.NewHeap : V1.Heap := [(0, V1.defaultFuncs)]

/-- The validator produced by `NewValidator()` over `V1.NewHeap`. -/
def V1.NewValidator : V1.Validator := { tagName := "validate", funcsRef := 0 }

/-- Legacy `Validator.copy`: copies the struct only — the new validator
shares the very same `validationFuncs` map
(`validationFuncs: mv.validationFuncs`). -/
def V1.copy (mv : V1.Validator) : V1.Validator :=
  { tagName := mv.tagName, funcsRef := mv.funcsRef }

/-- Legacy `Validator.WithTag`: copy, then set the tag name. -/
def V1.withTag (mv : V1.Validator) (tag : String) : V1.Validator :=
  { V1.copy mv with tagName := tag }

/-- Overwrite-or-insert into a registry (Go `m[name] = vf`). -/
def V1.regSet (m : V1.Reg) (name : String) (f : V1.OldVF) : V1.Reg :=
  (name, f) :: m

/-- Remove from a registry (Go `delete(m, name)`). -/
def V1.regDel (m : V1.Reg) (name : String) : V1.Reg :=
  m.filter (fun e => e.1 ≠ name)

/-- Legacy `Validator.SetValidationFunc`: empty names are rejected; a
nil function deletes the entry; otherwise the entry is stored — in the
map the validator references, which `copy` shares with its origin. -/
def V1.setValidationFunc (h : V1.Heap) (mv : V1.Validator) (name : String)
    (vf : Option V1.OldVF) : Except String V1.Heap :=
  if name = "" then .error "name cannot be empty"
  else
    .ok (h.map (fun e =>
      if e.1 = mv.funcsRef then
        (e.1, match vf with
              | none => V1.regDel e.2 name
              | some f => V1.regSet e.2 name f)
      else e))

/-- Association-list lookup keyed by naturals (the map heap). -/
def regFindNat {α : Type} : List (Nat × α) → Nat → Option α
  | [], _ => none
  | (k, f) :: rest, i => if k = i then some f else regFindNat rest i

/-- The registry contents a validator currently sees. -/
def V1.funcsOf (h : V1.Heap) (mv : V1.Validator) : V1.Reg :=
  match regFindNat h mv.funcsRef with
  | some m => m
  | none => []

/-- `Validate` through a validator and the heap its registry lives in. -/
def V1.ValidateH (h : V1.Heap) (mv : V1.Validator) (val : Option GoValue) :
    Except String (Bool × V1.ErrMap) :=
  V1.Validate (V1.funcsOf h mv) val

/-- A recorded violation of the rich variant: the rule name that failed
(`"invalid"` for structural failures) and a message. -/
structure Violation where
  rule : String
  message : String
deriving DecidableEq

/-- Parse failures of the rich tag parser.  The error carries the
offending rule name so the reported text can embed it. -/
inductive W.ParseErr where
  | emptyName
  | unknownName (name : String)
deriving DecidableEq

/-- The reported text of a rich parse failure; for an unknown rule name
the text embeds the offending name. -/
def W.ParseErr.text : W.ParseErr → String
  | .emptyName => "empty validation name in tag"
  | .unknownName n => "unknown validation name \"" ++ n ++ "\" in tag"

/-- Compile-time failures of a rich rule: the parameter could not be
parsed, or the rule does not apply to the field's kind. -/
inductive W.CompErr where
  | badParameter
  | unsupported
deriving DecidableEq

/-- A compiled rich check: applied to the value, it reports the failure
message, if any. -/
abbrev W.Checker : Type := GoValue → Option String

/-- String content of a value (the engine only applies a checker to a
value of the kind it was compiled for). -/
def GoValue.strOf : GoValue → String
  | .strV s => s
  | _ => ""

/-- Integer content of a value. -/
def GoValue.intOf : GoValue → Int
  | .intV n => n
  | _ => 0

/-- Whether a pointer value is nil. -/
def GoValue.ptrIsNil : GoValue → Bool
  | .ptrV .nil => true
  | _ => false

/-- Rich builtin `nonzero` (builtins.go, walidator variant, restricted
to the kinds in the value universe): strings non-empty, pointers
non-nil, ints non-zero, structs always pass (`okValidation`). -/
def W.nonzeroRule (k : Kind) (_param : String) : Except W.CompErr W.Checker :=
  match k with
  | .strK => .ok (fun v => if utf8Len v.strOf.data ≠ 0 then none else some "zero value")
  | .ptrK => .ok (fun v => if v.ptrIsNil then some "zero value" else none)
  | .intK => .ok (fun v => if v.intOf ≠ 0 then none else some "zero value")
  | .structK => .ok (fun _ => none)

/-- Rich builtin `length`: the parameter is parsed at compile time
(`ErrBadParameter` on failure); strings compare byte length, ints their
value; pointer and struct kinds are unsupported. -/
def W.lenRule (k : Kind) (param : String) : Except W.CompErr W.Checker :=
  match k with
  | .strK =>
    match goParseInt param with
    | none => .error .badParameter
    | some p => .ok (fun v => if (utf8Len v.strOf.data : Int) ≠ p then some "invalid length" else none)
  | .intK =>
    match goParseInt param with
    | none => .error .badParameter
    | some p => .ok (fun v => if v.intOf ≠ p then some "invalid length" else none)
  | _ => .error .unsupported

/-- Rich builtin `min`. -/
def W.minRule (k : Kind) (param : String) : Except W.CompErr W.Checker :=
  match k with
  | .strK =>
    match goParseInt param with
    | none => .error .badParameter
    | some p => .ok (fun v => if (utf8Len v.strOf.data : Int) < p then some "less than min" else none)
  | .intK =>
    match goParseInt param with
    | none => .error .badParameter
    | some p => .ok (fun v => if v.intOf < p then some "less than min" else none)
  | _ => .error .unsupported

/-- Rich builtin `max`. -/
def W.maxRule (k : Kind) (param : String) : Except W.CompErr W.Checker :=
  match k with
  | .strK =>
    match goParseInt param with
    | none => .error .badParameter
    | some p => .ok (fun v => if (utf8Len v.strOf.data : Int) > p then some "greater than max" else none)
  | .intK =>
    match goParseInt param with
    | none => .error .badParameter
    | some p => .ok (fun v => if v.intOf > p then some "greater than max" else none)
  | _ => .error .unsupported

/-- Rich builtin `regex`: the pattern is compiled first (a bad pattern
is `ErrBadParameter`), then non-string kinds are rejected as
unsupported. -/
def W.regexRule (k : Kind) (param : String) : Except W.CompErr W.Checker :=
  match regexpCompile param with
  | none => .error .badParameter
  | some m =>
    if k ≠ .strK then .error .unsupported
    else .ok (fun v => if m v.strOf then none else some "regular expression mismatch")

/-- A rich registry: rule name to rule compiler. -/
abbrev W.Reg : Type := List (String × (Kind → String → Except W.CompErr W.Checker))

/-- The rich default registry (the five core rules; the extension rules
`required`, `uuid`, `latitude`, `longitude` are not needed by any
claim). -/
def W.defaultFuncs : W.Reg :=
  [("nonzero", W.nonzeroRule), ("len", W.lenRule), ("min", W.minRule),
   ("max", W.maxRule), ("regexp", W.regexRule)]

/-- Modelled from the spec: the rich tag splitter (RuleParser).  The
engine implementing it is not among the sources (only its tests are).
Segments are split on commas that are not escaped, and the escape
sequence for a literal comma is restored to a literal comma before
parameter use; a backslash not followed by a comma stands for itself. -/
def W.segsGo : List Char → List Char → List String
  | [], cur => [⟨cur.reverse⟩]
  | '\\' :: ',' :: rest, cur => W.segsGo rest (',' :: cur)
  | ',' :: rest, cur => (⟨cur.reverse⟩ : String) :: W.segsGo rest []
  | c :: rest, cur => W.segsGo rest (c :: cur)

/-- Modelled from the spec: the segment loop of the rich RuleParser.
Each segment is split on the first `=`; both sides are trimmed of
spaces; an empty rule name or a name missing from the registry fails
with a structural parse error. -/
def W.parseGo (reg : W.Reg) : List String → Except W.ParseErr (List (String × String))
  | [] => .ok []
  | seg :: rest =>
    let pr := splitEqChars seg.data
    let name : String := ⟨trimSpaces pr.1⟩
    if name = "" then .error .emptyName
    else
      let param : String :=
        match pr.2 with
        | some r => ⟨trimSpaces r⟩
        | none => ""
      match regFind reg name with
      | none => .error (.unknownName name)
      | some _ =>
        match W.parseGo reg rest with
        | .error e => .error e
        | .ok specs => .ok ((name, param) :: specs)

/-- Modelled from the spec: the rich RuleParser.  An empty tag string is
an empty rule list, not an error; otherwise the tag is split on
unescaped commas and each segment parsed. -/
def W.parseTags (reg : W.Reg) (t : String) : Except W.ParseErr (List (String × String)) :=
  if t = "" then .ok []
  else W.parseGo reg (W.segsGo t.data [])

/-- Modelled from the spec: evaluation of one parsed rule specification
against a value.  A compile failure of the rule (bad parameter,
unsupported type) is deferred and reported as a per-path violation
under the rule's own name rather than aborting the traversal. -/
def W.runOne (reg : W.Reg) (s : String × String) (v : GoValue) : List Violation :=
  match regFind reg s.1 with
  | none => []
  | some comp =>
    match comp v.kind s.2 with
    | .error .badParameter => [{ rule := s.1, message := "bad parameter" }]
    | .error .unsupported => [{ rule := s.1, message := "unsupported type" }]
    | .ok chk =>
      match chk v with
      | some msg => [{ rule := s.1, message := msg }]
      | none => []

/-- Modelled from the spec: run a field's own rules.  A parse failure of
the tag yields a single violation under the name `invalid` whose
message is the parse error's text; otherwise the rules run in
declaration order and the violations accumulate in that order. -/
def W.runRules (reg : W.Reg) (tagStr : String) (v : GoValue) : List Violation :=
  match W.parseTags reg tagStr with
  | .error e => [{ rule := "invalid", message := e.text }]
  | .ok specs => (specs.map (fun s => W.runOne reg s v)).flatten

/-- Render a path: field segments joined with `.`, no leading dot at
the root. -/
def W.renderPath : List String → String
  | [] => ""
  | [s] => s
  | s :: rest => s ++ "." ++ W.renderPath rest

mutual
/-- Modelled from the spec: the rich traversal (TypeCompiler composed
with the runtime walk).  A struct walks its fields; a non-nil pointer
validates its pointee under the same path; a nil pointer
short-circuits to no violation; primitives have no recursive descent. -/
def W.validateValue (reg : W.Reg) (path : List String) : GoValue → List (String × Violation)
  | .structV fs => W.validateFields reg path fs
  | .ptrV (.ref v) => W.validateValue reg path v
  | _ => []

/-- Modelled from the spec: the per-field composed check.  A field whose
tag is exactly `-` is skipped entirely; otherwise the field's own rules
run first and the recursive routine for the field's value runs second,
both under the path extended with the field's name. -/
def W.validateFields (reg : W.Reg) (path : List String) : GoFields → List (String × Violation)
  | .nil => []
  | .cons name tag v rest =>
    (if tag = "-" then []
     else
       (W.runRules reg tag v).map (fun viol => (W.renderPath (path ++ [name]), viol))
         ++ W.validateValue reg (path ++ [name]) v)
      ++ W.validateFields reg path rest
end

/-- Modelled from the spec: the rich `Validate` entry point — walk the
value from the root path and return the accumulated path-keyed
violations (empty result means valid). -/
def W.validate (reg : W.Reg) (v : GoValue) : List (String × Violation) :=
  W.validateValue reg [] v

/-- Modelled from the spec: the rich `Valid` entry point for a single
bare value — non-nil pointers are dereferenced, a struct is rejected as
a usage error, any other value is checked against the tag string with
no path. -/
def W.valid (reg : W.Reg) (v : GoValue) (tagStr : String) :
    Except String (List Violation) :=
  match v with
  | .ptrV (.ref v2) => W.valid reg v2 tagStr
  | .structV _ => .error "unsupported: use Validate for structs"
  | v2 => .ok (W.runRules reg tagStr v2)

/-- Characters that act purely as segment content in a tag: not the
separator, not the escape, not the name/parameter divider. -/
def plainChar (c : Char) : Bool := !(c == ',' || c == '\\' || c == '=')

/-- The struct validated in `TestCopy`:
`struct \x7b A string `validate:"custom"` \x7d` with its zero value. -/
def c2val : GoValue := .structV (gf [("A", "custom", .strV "")])

/-- The origin validator of the `TestCopy` scenario (`NewValidator()`). -/
def c2origin : V1.Validator := V1.NewValidator

/-- The derived validator (`v.WithTag("validate")`), sharing the origin's
registry map. -/
def c2derived : V1.Validator := V1.withTag V1.NewValidator "validate"

/-- The heap after `derived.SetValidationFunc("custom", customFn)`. -/
def c2heap1 : V1.Heap :=
  match V1.setValidationFunc V1.NewHeap c2derived "custom" (some V1.customFn) with
  | .ok h => h
  | .error _ => []

/-- The tag list parsed from `len=8,min=6,max=4` by the legacy parser. -/
def c3tags : List V1.Tag :=
  match V1.parseTags V1.defaultFuncs "len=8,min=6,max=4" with
  | .ok ts => ts
  | .error _ => []

/-- The end-to-end example struct:
`A int `nonzero``, `B string `len=8,min=6,max=4`` with `A=0, B="12345"`. -/
def c3val : GoValue :=
  .structV (gf [("A", "nonzero", .intV 0), ("B", "len=8,min=6,max=4", .strV "12345")])

/-- A nested struct whose own rules fail on its zero value: one `int`
field tagged `min=1` left at `0`. -/
def c1inner : GoValue := .structV (gf [("N", "min=1", .intV 0)])

/-- A segment of only plain characters splits to itself: the rich
splitter neither divides it nor alters it. -/
theorem W.segsGo_plain : ∀ (cs cur : List Char), cs.all plainChar = true →
    W.segsGo cs cur = [⟨cur.reverse ++ cs⟩]
  | [], cur, _ => by simp [W.segsGo]
  | c :: rest, cur, h => by
    have hc : plainChar c = true ∧ rest.all plainChar = true := by
      simpa [List.all_cons, Bool.and_eq_true_iff] using h
    have hc1 : c ≠ ',' := by
      intro e
      rw [e] at hc
      simp [plainChar] at hc
    have hc2 : c ≠ '\\' := by
      intro e
      rw [e] at hc
      simp [plainChar] at hc
    rw [W.segsGo.eq_4 cur c rest (by intro r e1 _; exact hc2 e1) (fun e => hc1 e),
      W.segsGo_plain rest (c :: cur) hc.2]
    simp

/-- A segment of only plain characters contains no `=`: the first-`=`
split returns it whole with no parameter part. -/
theorem splitEqChars_plain : ∀ (cs : List Char), cs.all plainChar = true →
    splitEqChars cs = (cs, none)
  | [], _ => by simp [splitEqChars]
  | c :: rest, h => by
    have hc : plainChar c = true ∧ rest.all plainChar = true := by
      simpa [List.all_cons, Bool.and_eq_true_iff] using h
    have hc3 : c ≠ '=' := by
      intro e
      rw [e] at hc
      simp [plainChar] at hc
    simp [splitEqChars, hc3, splitEqChars_plain rest hc.2]

/-- A plain, trimmed, non-empty rule name that is not registered parses
to the unknown-name error carrying exactly that name. -/
theorem W.parse_unknown (reg : W.Reg) (name : String)
    (h1 : regFind reg name = none)
    (h2 : trimSpaces name.data = name.data)
    (h3 : name ≠ "")
    (h4 : name.data.all plainChar = true) :
    W.parseTags reg name = .error (.unknownName name) := by
  obtain ⟨cs⟩ := name
  unfold W.parseTags
  rw [if_neg h3]
  rw [W.segsGo_plain cs [] h4]
  simp only [List.reverse_nil, List.nil_append]
  unfold W.parseGo
  rw [splitEqChars_plain cs h4]
  simp only [h2]
  rw [if_neg h3, h1]

/-- Dropping a field whose tag is exactly `-` from anywhere in a struct
leaves the rich traversal's output unchanged. -/
theorem W.fields_skip_dash (reg : W.Reg) (path : List String) (n : String) (v : GoValue) :
    ∀ (fs1 fs2 : GoFields),
      W.validateFields reg path (fs1.append (.cons n "-" v fs2)) =
      W.validateFields reg path (fs1.append fs2)
  | .nil, fs2 => by simp [GoFields.append, W.validateFields]
  | .cons m t w rest, fs2 => by
    simp only [GoFields.append, W.validateFields]
    rw [W.fields_skip_dash reg path n v rest fs2]

/-- When the legacy rule loop completes without a panic, the error list
is exactly the failures of the parsed tags in declaration order. -/
theorem V1.runOrder (v : Option GoValue) : ∀ (ts : List V1.Tag) (es : List VErr),
    V1.runTags v ts = .ok es → es = V1.orderedFailures v ts
  | [], es, h => by
    simp [V1.runTags] at h
    simp [V1.orderedFailures, ← h]
  | t :: rest, es, h => by
    simp only [V1.runTags] at h
    simp only [V1.orderedFailures, List.filterMap_cons]
    cases h1 : t.fn v t.param with
    | error m => rw [h1] at h; exact absurd h (by simp)
    | ok r =>
      rw [h1] at h
      cases h2 : V1.runTags v rest with
      | error m => rw [h2] at h; exact absurd h (by simp)
      | ok others =>
        rw [h2] at h
        have ih := V1.runOrder v rest others h2
        cases r with
        | none =>
          simp at h
          simp [← h, ih, V1.orderedFailures]
        | some e =>
          simp at h
          simp [← h, ih, V1.orderedFailures]

/-- Any value that does not resolve to a struct through its pointers
validates cleanly against the empty tag string in the rich `Valid`. -/
theorem W.finalKind_valid_empty (reg : W.Reg) :
    ∀ (v : GoValue), v.finalKind ≠ .structK → W.valid reg v "" = .ok []
  | .intV _, _ => rfl
  | .strV _, _ => rfl
  | .ptrV .nil, _ => rfl
  | .ptrV (.ref v), h => by
    have h2 : v.finalKind ≠ Kind.structK := by
      simpa [GoValue.finalKind] using h
    simpa [W.valid] using W.finalKind_valid_empty reg v h2
  | .structV _, h => absurd rfl h

/-- Legacy `Valid` sees through any number of non-nil pointers. -/
theorem V1.valid_ptrIter (reg : V1.Reg) (tags : String) :
    ∀ (k : Nat) (v : GoValue),
      V1.Valid reg (some (GoValue.ptrIter k v)) tags = V1.Valid reg (some v) tags
  | 0, v => rfl
  | k + 1, v => by
    simp only [GoValue.ptrIter]
    show V1.ValidGo reg (.ptrV (.ref (GoValue.ptrIter k v))) tags = _
    rw [V1.ValidGo]
    exact V1.valid_ptrIter reg tags k v

/-- Legacy `Validate` sees through any number of non-nil pointers. -/
theorem V1.validate_ptrIter (reg : V1.Reg) :
    ∀ (k : Nat) (v : GoValue),
      V1.Validate reg (some (GoValue.ptrIter k v)) = V1.Validate reg (some v)
  | 0, v => rfl
  | k + 1, v => by
    simp only [GoValue.ptrIter]
    show (match V1.ValidateV reg (.ptrV (.ref (GoValue.ptrIter k v))) with
      | Except.error m => Except.error m
      | Except.ok ms => Except.ok (ms.isEmpty, ms)) = _
    rw [V1.ValidateV]
    exact V1.validate_ptrIter reg k v

/-- C1: for every struct value containing a field whose validation tag
is exactly `-`, the rich `Validate` never applies any rule to that
field or to any value reachable through it — the output equals the
output with the field removed, so no path rooted at the field appears —
even when the field's value is a nested struct whose own `min` rule on
an int left zero would otherwise fail (second and third conjuncts:
skipped it reports nothing, validated directly it fails). -/
theorem claim_C1_dash_skip :
    (∀ (reg : W.Reg) (path : List String) (n : String) (v : GoValue) (fs1 fs2 : GoFields),
      W.validateFields reg path (fs1.append (.cons n "-" v fs2)) =
      W.validateFields reg path (fs1.append fs2))
    ∧ W.validate W.defaultFuncs (.structV (gf [("A", "-", c1inner)])) = []
    ∧ W.validate W.defaultFuncs c1inner =
        [("N", { rule := "min", message := "less than min" })] :=
  ⟨fun reg path n v fs1 fs2 => W.fields_skip_dash reg path n v fs1 fs2, rfl, rfl⟩

/-- C2: the claim that registering a validation function on a derived
(copied) validator never changes the origin's behaviour is FALSE for
the code: `Validator.copy` stores `validationFuncs: mv.validationFuncs`,
sharing the map, so after `derived.SetValidationFunc("custom", f)` the
origin accepts the `custom` tag it previously rejected — exactly the
behaviour change `TestCopy` asserts must not happen. -/
theorem claim_C2_copy_shares_registry :
    V1.setValidationFunc V1.NewHeap c2derived "custom" (some V1.customFn) = .ok c2heap1
    ∧ V1.ValidateH V1.NewHeap c2origin (some c2val) =
        .ok (false, [("A", [.unknownTag])])
    ∧ V1.ValidateH c2heap1 c2origin (some c2val) = .ok (true, []) :=
  ⟨rfl, rfl, rfl⟩

/-- C3: the struct with `A int `nonzero`` and
`B string `len=8,min=6,max=4`` at values `A=0, B="12345"` reports
exactly one violation for `A` (zero value) and exactly three for `B`
in the order `len`, `min`, `max`; and in general the error list a
completed rule loop records is the failures of the parsed tags in
declaration order. -/
theorem claim_C3_order :
    V1.Validate V1.defaultFuncs (some c3val) =
      .ok (false, [("A", [.zeroValue]), ("B", [.len, .min, .max])])
    ∧ (∀ (v : Option GoValue) (ts : List V1.Tag) (es : List VErr),
        V1.runTags v ts = .ok es → es = V1.orderedFailures v ts) :=
  ⟨rfl, fun v ts es h => V1.runOrder v ts es h⟩

/-- C3 witness: the general order property instantiated at `B`'s value
and parsed tag list. -/
theorem claim_C3_order_witness :
    V1.runTags (some (.strV "12345")) c3tags = .ok [.len, .min, .max]
    ∧ [VErr.len, VErr.min, VErr.max] =
        V1.orderedFailures (some (.strV "12345")) c3tags :=
  ⟨rfl, claim_C3_order.2 (some (.strV "12345")) c3tags [.len, .min, .max] rfl⟩

/-- C4: the tag `min=0,regexp=^a\x7b3\,10\x7d` parses to exactly two
rules, `min` with parameter `0` and `regexp` with literal parameter
`^a\x7b3,10\x7d` (the escaped comma restored); a matching string value
passes and a non-matching one fails only the regexp rule. -/
theorem claim_C4_escaped_comma :
    W.parseTags W.defaultFuncs "min=0,regexp=^a\x7b3\\,10\x7d" =
      .ok [("min", "0"), ("regexp", "^a\x7b3,10\x7d")]
    ∧ W.validate W.defaultFuncs
        (.structV (gf [("A", "min=0,regexp=^a\x7b3\\,10\x7d", .strV "aaaa")])) = []
    ∧ W.validate W.defaultFuncs
        (.structV (gf [("A", "min=0,regexp=^a\x7b3\\,10\x7d", .strV "aa")])) =
        [("A", { rule := "regexp", message := "regular expression mismatch" })] :=
  ⟨rfl, rfl, rfl⟩

/-- C5: parsing the empty tag string yields the empty rule list and is
not an error, and validating any value that does not resolve to a
struct against the empty tag string reports no violations and no parse
failure. -/
theorem claim_C5_empty_tag :
    (∀ reg : W.Reg, W.parseTags reg "" = .ok [])
    ∧ (∀ (reg : W.Reg) (v : GoValue),
        v.finalKind ≠ .structK → W.valid reg v "" = .ok []) :=
  ⟨fun _ => rfl, fun reg v h => W.finalKind_valid_empty reg v h⟩

/-- C5 witness: the empty-tag property at the concrete value `5`. -/
theorem claim_C5_empty_tag_witness :
    (GoValue.intV 5).finalKind ≠ Kind.structK
    ∧ W.valid W.defaultFuncs (.intV 5) "" = .ok [] :=
  ⟨by decide, claim_C5_empty_tag.2 W.defaultFuncs (.intV 5) (by decide)⟩

/-- C6: a struct whose field is a nil pointer tagged `nonzero` yields
exactly one violation (zero value) at that field's name, whatever the
name, and nothing reachable through the pointer is evaluated; by
contrast, when the pointer is non-nil and the pointee's `min=10` rule
fails on `A=0`, the violation appears at the pointee's path `D.A`. -/
theorem claim_C6_nil_pointer_nonzero :
    (∀ n : String,
      V1.Validate V1.defaultFuncs (some (.structV (gf [(n, "nonzero", .ptrV .nil)]))) =
        .ok (false, [(n, [.zeroValue])]))
    ∧ V1.Validate V1.defaultFuncs
        (some (.structV (gf
          [("D", "nonzero", .ptrV (.ref (.structV (gf [("A", "min=10", .intV 0)]))))]))) =
        .ok (false, [("D.A", [.min])]) :=
  ⟨fun _ => rfl, rfl⟩

/-- C7: `Valid` on a struct value, or on any chain of non-nil pointers
resolving to a struct, does not validate it but rejects the call with
the unsupported-type usage error, independent of the fields and the tag
string. -/
theorem claim_C7_valid_rejects_struct :
    ∀ (reg : V1.Reg) (k : Nat) (fs : GoFields) (tags : String),
      V1.Valid reg (some (GoValue.ptrIter k (.structV fs))) tags =
        .ok (false, [.unsupported]) :=
  fun reg k fs tags => (V1.valid_ptrIter reg tags k (.structV fs)).trans rfl

/-- C8: a rule that supports the field's type but cannot parse its
parameter compiles to the bad-parameter failure (first conjunct, for
`max` on an int), and the rich traversal records it as a violation at
the field's path and continues normally with the sibling fields —
shown for `max=foo` on an int and for `min=` (empty parameter) on a
string. -/
theorem claim_C8_bad_parameter :
    (∀ param : String, goParseInt param = none →
      W.maxRule .intK param = .error .badParameter)
    ∧ W.validate W.defaultFuncs
        (.structV (gf [("A", "max=foo", .intV 5), ("B", "nonzero", .intV 0)])) =
        [("A", { rule := "max", message := "bad parameter" }),
         ("B", { rule := "nonzero", message := "zero value" })]
    ∧ W.validate W.defaultFuncs (.structV (gf [("A", "min=", .strV "x")])) =
        [("A", { rule := "min", message := "bad parameter" })] :=
  ⟨fun param h => by simp [W.maxRule, h], rfl, rfl⟩

/-- C8 witness: the compile-failure property at the parameter `foo`. -/
theorem claim_C8_bad_parameter_witness :
    goParseInt "foo" = none ∧ W.maxRule .intK "foo" = .error .badParameter :=
  ⟨rfl, claim_C8_bad_parameter.1 "foo" rfl⟩

/-- C9: a tag segment whose rule name is not in the registry fails to
parse with an unknown-name error that carries the offending name, and
the reported text embeds that name; concretely, `min=3,foo` fails
naming `foo`. -/
theorem claim_C9_unknown_name :
    (∀ (reg : W.Reg) (name : String),
      regFind reg name = none → trimSpaces name.data = name.data →
      name ≠ "" → name.data.all plainChar = true →
      W.parseTags reg name = .error (.unknownName name)
      ∧ (W.ParseErr.unknownName name).text =
          "unknown validation name \"" ++ name ++ "\" in tag")
    ∧ W.parseTags W.defaultFuncs "min=3,foo" = .error (.unknownName "foo") :=
  ⟨fun reg name h1 h2 h3 h4 => ⟨W.parse_unknown reg name h1 h2 h3 h4, rfl⟩, rfl⟩

/-- C9 witness: the unknown-name property at the name `foo` over the
default registry. -/
theorem claim_C9_unknown_name_witness :
    regFind W.defaultFuncs "foo" = (none : Option (Kind → String → Except W.CompErr W.Checker))
    ∧ W.parseTags W.defaultFuncs "foo" = .error (.unknownName "foo")
    ∧ (W.ParseErr.unknownName "foo").text = "unknown validation name \"foo\" in tag" :=
  ⟨rfl,
   (claim_C9_unknown_name.1 W.defaultFuncs "foo" rfl rfl (by decide) rfl).1,
   (claim_C9_unknown_name.1 W.defaultFuncs "foo" rfl rfl (by decide) rfl).2⟩

/-- C10: `Valid` on a non-nil pointer returns exactly the result of
`Valid` on the value pointed to, and likewise `Validate`; pointers are
dereferenced transparently and recursively (any chain of non-nil
pointers), for every registry, value and tag string. -/
theorem claim_C10_pointer_transparent :
    (∀ (reg : V1.Reg) (v : GoValue) (tags : String),
      V1.Valid reg (some (.ptrV (.ref v))) tags = V1.Valid reg (some v) tags)
    ∧ (∀ (reg : V1.Reg) (v : GoValue),
      V1.Validate reg (some (.ptrV (.ref v))) = V1.Validate reg (some v))
    ∧ (∀ (reg : V1.Reg) (tags : String) (k : Nat) (v : GoValue),
      V1.Valid reg (some (GoValue.ptrIter k v)) tags = V1.Valid reg (some v) tags)
    ∧ (∀ (reg : V1.Reg) (k : Nat) (v : GoValue),
      V1.Validate reg (some (GoValue.ptrIter k v)) = V1.Validate reg (some v)) :=
  ⟨fun _ _ _ => rfl, fun _ _ => rfl,
   fun reg tags k v => V1.valid_ptrIter reg tags k v,
   fun reg k v => V1.validate_ptrIter reg k v⟩
